import Mathlib

/-!
Verification of the timelapse module (geemap/timelapse.py).

The module orchestrates an external geospatial platform (Earth Engine),
the PIL imaging library, and external encoders (ffmpeg, gifsicle).  The
shallow embedding below models:

* the pure query-assembly logic of `create_timeseries` and `add_overlay`
  (Earth Engine collections become lists of images with a millisecond
  timestamp; the platform-side operations `filterDate`, `reduce`,
  `advance`, `blend` are taken as function parameters, since their pixel
  semantics live on the server);
* the coordinate-resolution, text-sequence and progress-bar logic of
  `add_text_to_gif`, `add_image_to_gif` and `add_progress_bar_to_gif`
  (Python tuples of ints/strings become an inductive `PyXY`; the file
  system and PIL failure oracles are explicit parameters);
* the encoder-invoking functions `make_gif`, `gif_to_mp4`, `merge_gifs`,
  `gif_to_png`, `gif_fading` as functions over an explicit file-system
  state (a list of existing paths), with `os.system` modelled as a
  parameter `run : String → List String` returning the files the
  external command created.

Python builtins used by the source (`str`, `int`, `float`, `str.zfill`,
`str.replace`, list sort) are modelled below; floats are modelled as
exact rationals.
-/

/-- Model of Python list.sort comparison on strings: code-point
lexicographic less-than over the character sequences. -/
def lexLtCh : List Char → List Char → Bool
  | [], [] => false
  | [], _ :: _ => true
  | _ :: _, [] => false
  | a :: s, b :: t =>
    if a.toNat < b.toNat then true
    else if b.toNat < a.toNat then false
    else lexLtCh s t

/-- Python string less-than (code-point lexicographic). -/
def pyStrLt (s t : String) : Bool := lexLtCh s.data t.data

/-- Python string less-or-equal, as used by the ascending stable sort. -/
def pyStrLe (s t : String) : Bool := !(pyStrLt t s)

/-- Sorting relation for the model of Python list.sort on strings. -/
def pySortLe : String → String → Prop := fun a b => pyStrLe a b = true

instance : DecidableRel pySortLe := fun a b => by unfold pySortLe; infer_instance

/-- Model of Python list.sort on strings: a stable ascending sort. -/
def pySort (l : List String) : List String := List.insertionSort pySortLe l

/-- Big-endian decimal digits of a natural number (empty for 0). -/
def decDigits (n : Nat) : List Nat := (Nat.digits 10 n).reverse

/-- Model of Python str(n) for a natural number, as a character list. -/
def pyStrNatChars (n : Nat) : List Char :=
  if n = 0 then ['0'] else (decDigits n).map Nat.digitChar

/-- Model of Python str(n) for a natural number. -/
def pyStrNat (n : Nat) : String := String.mk (pyStrNatChars n)

/-- Model of Python str(n) for an integer. -/
def pyStrInt (n : Int) : String :=
  if n < 0 then String.mk ('-' :: pyStrNatChars n.natAbs) else pyStrNat n.natAbs

/-- Model of Python str.zfill on a character list: pad on the left with
zeros up to the requested width. -/
def zfillCh (w : Nat) (s : List Char) : List Char :=
  List.replicate (w - s.length) '0' ++ s

/-- Auxiliary fuelled loop for `replaceAll`. -/
def replaceAllAux (pat repl : List Char) : Nat → List Char → List Char
  | 0, s => s
  | _ + 1, [] => []
  | fuel + 1, c :: rest =>
    if pat.isPrefixOf (c :: rest) then
      repl ++ replaceAllAux pat repl fuel (List.drop (pat.length - 1) rest)
    else c :: replaceAllAux pat repl fuel rest

/-- Model of Python str.replace: replace every non-overlapping occurrence
of pat, scanning left to right. -/
def pyReplace (s pat repl : String) : String :=
  String.mk (replaceAllAux pat.data repl.data s.data.length s.data)

/-- Model of Python str.endswith. -/
def pyEndsWith (s suffix : String) : Bool := suffix.data.isSuffixOf s.data

/-- String equality test over the underlying characters. -/
def strEq (s t : String) : Bool := s.data == t.data

/-- The file system is modelled as the list of existing paths; this is
the model of os.path.exists. -/
def fileExists (fs : List String) (p : String) : Bool := fs.any (fun q => strEq q p)

/-- Truncation of a rational toward zero, the model of Python int() on a
float. -/
def pyTrunc (q : ℚ) : Int := q.num.tdiv (q.den : Int)

/-- Decimal value of a digit character, when it is one. -/
def digitVal (c : Char) : Option Nat :=
  if 48 ≤ c.toNat ∧ c.toNat ≤ 57 then some (c.toNat - 48) else none

/-- Value of a nonempty all-digit character list, if it is one. -/
def digitsVal : List Char → Option Nat
  | [] => none
  | l =>
    l.foldl
      (fun acc c =>
        match acc, digitVal c with
        | some a, some d => some (10 * a + d)
        | _, _ => none)
      (some 0)

/-- Model of Python float() restricted to plain decimal literals
(optional sign, integer part, optional dot and fraction part); the value
is returned unscaled as a pair (mantissa, number of fraction digits),
meaning mantissa / 10 ^ fracDigits.  Exotic float syntax (exponents,
inf/nan, underscores, surrounding whitespace) is not modelled. -/
def parseFloat (l : List Char) : Option (Int × Nat) :=
  let core : List Char → Option (Int × Nat) := fun l₁ =>
    match l₁.splitOn '.' with
    | [ip] => (digitsVal ip).map (fun v => ((v : Int), 0))
    | [ip, fp] =>
      if ip = [] ∧ fp = [] then none
      else
        match digitsVal (ip ++ fp) with
        | some v => some ((v : Int), fp.length)
        | none =>
          match ip, digitsVal fp with
          | [], some v => some ((v : Int), fp.length)
          | _, _ =>
            match fp, digitsVal ip with
            | [], some v => some ((v : Int), 0)
            | _, _ => none
    | _ => none
  match l with
  | '-' :: rest => (core rest).map (fun p => (-p.1, p.2))
  | '+' :: rest => core rest
  | _ => core l

/-- Rational value of a parsed float. -/
def floatVal (m : Int) (k : Nat) : ℚ := (m : ℚ) / (10 : ℚ) ^ k

/-- Model of Python int() on a string: optional sign then digits. -/
def parseIntStr (s : String) : Option Int :=
  match s.data with
  | '-' :: rest => (digitsVal rest).map (fun v => -(v : Int))
  | '+' :: rest => (digitsVal rest).map (fun v => (v : Int))
  | l => (digitsVal l).map (fun v => (v : Int))

/-! ### Earth Engine collection model: add_overlay and create_timeseries -/

/-- A rendered Earth Engine image: abstract pixel content plus a
property dictionary (string keys, integer values). -/
structure EEImage where
  pix : Int
  props : List (String × Int)

/-- Model of ee get on a property key. -/
def EEImage.get (img : EEImage) (k : String) : Option Int :=
  img.props.lookup k

/-- Pure core of add_overlay (timelapse.py lines 93-97): map img.blend
over the collection, re-setting system:time_start from the source image.
The server-side blend of the painted overlay is the parameter `blend`;
the blended result keeps no properties of its own, which is the
conservative model of ee blend, and the code then sets
system:time_start explicitly. -/
def add_overlay (blend : Int → Int → Int) (overlayPix : Int)
    (col : List EEImage) : List EEImage :=
  col.map (fun img =>
    { pix := blend img.pix overlayPix,
      props :=
        match img.get "system:time_start" with
        | some t => [("system:time_start", t)]
        | none => [] })

/-- The eight frequencies of the feq_dict in create_timeseries. -/
inductive Frequency where
  | year | month | quarter | week | day | hour | minute | second
deriving DecidableEq

/-- The date-format dictionary feq_dict of create_timeseries. -/
def feqDict : Frequency → String
  | .year => "YYYY"
  | .month => "YYYY-MM"
  | .quarter => "YYYY-MM"
  | .week => "YYYY-MM-dd"
  | .day => "YYYY-MM-dd"
  | .hour => "YYYY-MM-dd HH"
  | .minute => "YYYY-MM-dd HH:mm"
  | .second => "YYYY-MM-dd HH:mm:ss"

/-- A source image of the input collection: a timestamp in epoch
milliseconds and abstract (already band-selected) pixel content. -/
structure SrcImage where
  time_start : Nat
  val : Int

/-- Model of ee filterDate: keep images whose system:time_start lies in
the half-open interval [s, e). -/
def filterDate (col : List SrcImage) (s e : Nat) : List SrcImage :=
  col.filter (fun im => decide (s ≤ im.time_start ∧ im.time_start < e))

/-- A composite image produced by create_timeseries: its time bucket
start, the empty flag set by the code, and the reduced pixel value. -/
structure TSImage where
  time_start : Nat
  emptyFlag : Nat
  val : Int
deriving DecidableEq

/-- End of the time bucket of create_image: the bucket start advanced by
three months when frequency is quarter, else by one frequency unit.
The ee Date.advance operation is the parameter `adv` (delta, unit,
date). -/
def bucketEnd (adv : Nat → Frequency → Nat → Nat) (freq : Frequency) (d : Nat) : Nat :=
  if freq = Frequency.quarter then adv 3 Frequency.month d else adv 1 freq d

/-- The create_image closure of create_timeseries (timelapse.py lines
789-815).  `reducer` is the named ee reducer as a function on the pixel
values of the sub-collection; `region` is the optional filterBounds
predicate and `clip` the server-side clip applied when a region is
given.  Band renaming is abstracted away by the single-value pixel
model. -/
def create_image (col : List SrcImage) (adv : Nat → Frequency → Nat → Nat)
    (freq : Frequency) (reducer : List Int → Int)
    (region : Option (SrcImage → Bool)) (clip : Int → Int) (d : Nat) : TSImage :=
  match region with
  | none =>
    let sub := filterDate col d (bucketEnd adv freq d)
    { time_start := d,
      emptyFlag := if sub.length = 0 then 1 else 0,
      val := reducer (sub.map SrcImage.val) }
  | some inR =>
    let sub := (filterDate col d (bucketEnd adv freq d)).filter (fun im => inR im)
    { time_start := d,
      emptyFlag := if sub.length = 0 then 1 else 0,
      val := clip (reducer (sub.map SrcImage.val)) }

/-- Model of create_timeseries (timelapse.py lines 817-824): one
composite per date of the date sequence, then filterMetadata empty
equals 0 when drop_empty.  The date sequence (produced by the external
geemap.common.date_sequence) is the input `dates`. -/
def create_timeseries (col : List SrcImage) (dates : List Nat)
    (freq : Frequency) (adv : Nat → Frequency → Nat → Nat)
    (reducer : List Int → Int) (region : Option (SrcImage → Bool))
    (clip : Int → Int) (drop_empty : Bool) : List TSImage :=
  let images := dates.map (create_image col adv freq reducer region clip)
  if drop_empty then images.filter (fun im => im.emptyFlag == 0) else images

/-! ### Coordinate resolution and the GIF annotation pipeline -/

/-- A Python value appearing as an element of the xy pair. -/
inductive PyElem where
  | pint (i : Int)
  | pstr (s : String)
  | pother
deriving DecidableEq

/-- The xy argument: None, or a sequence (tuple or not) of elements. -/
inductive PyXY where
  | pynone
  | pyseq (isTuple : Bool) (elems : List PyElem)
deriving DecidableEq

/-- Outcome of the xy-resolution block: proceed with pixel coordinates,
proceed with the pair left as unresolved strings (the percent-free
string case, where the code falls through without touching xy), print a
message and return, or raise. -/
inductive XYRes where
  | proceed (x y : Int)
  | proceedRaw (x y : String)
  | printedReturn (msg : String)
  | raised (msg : String)
deriving DecidableEq

/-- Message printed when xy is a non-tuple pair. -/
def msgMustBeTuple : String := "xy must be a tuple, e.g., (10, 10), (\x2710%\x27, \x2710%\x27)"

/-- Message printed when an integer pair is out of bounds. -/
def msgOutOfBounds (W H : Int) : String :=
  "xy is out of bounds. x must be within [0, " ++ pyStrInt W ++
    "], and y must be within [0, " ++ pyStrInt H ++ "]"

/-- Message printed (add_text_to_gif) or raised (add_image_to_gif) for an
invalid xy format. -/
def msgInvalidXY : String :=
  "The specified xy is invalid. It must be formatted like this: (10, 10) or (\x2710%\x27, \x2710%\x27)"

/-- Message raised when a percentage pair fails to parse. -/
def msgInvalidXYRaise : String :=
  "The specified xy is invalid. It must be formatted like this (\x2710%\x27, \x2710%\x27)"

/-- Model of the Python membership test percent-sign in s. -/
def hasPct (s : String) : Bool := s.data.contains '%'

/-- The xy-resolution block of add_text_to_gif (timelapse.py lines
469-499).  The default location for None is int(0.05 * W) of the frame,
the float constant 0.05 being modelled as the exact rational 5/100. -/
def resolveTextXY (W H : Int) (xy : PyXY) : XYRes :=
  match xy with
  | .pynone => .proceed (pyTrunc ((5 : ℚ) / 100 * (W : ℚ))) (pyTrunc ((5 : ℚ) / 100 * (H : ℚ)))
  | .pyseq isTuple elems =>
    if !isTuple && elems.length == 2 then .printedReturn msgMustBeTuple
    else
      match elems with
      | [.pint x, .pint y] =>
        if 0 < x ∧ x < W ∧ 0 < y ∧ y < H then .proceed x y
        else .printedReturn (msgOutOfBounds W H)
      | [.pstr x, .pstr y] =>
        if hasPct x && hasPct y then
          match parseFloat ((pyReplace x "%" "").data), parseFloat ((pyReplace y "%" "").data) with
          | some (mx, kx), some (my, ky) =>
            .proceed (pyTrunc (floatVal mx kx / 100 * (W : ℚ)))
              (pyTrunc (floatVal my ky / 100 * (H : ℚ)))
          | _, _ => .raised msgInvalidXYRaise
        else .proceedRaw x y
      | _ => .printedReturn msgInvalidXY

/-- The xy-resolution block of add_image_to_gif (timelapse.py lines
632-666).  It differs from the text version in its default location
(bottom-right corner offset by the resized logo) and in raising, rather
than printing, on an invalid format. -/
def resolveImageXY (W H resizeW resizeH : Int) (xy : PyXY) : XYRes :=
  match xy with
  | .pynone => .proceed (W - resizeW - 10) (H - resizeH - 10)
  | .pyseq isTuple elems =>
    if !isTuple && elems.length == 2 then .printedReturn msgMustBeTuple
    else
      match elems with
      | [.pint x, .pint y] =>
        if 0 < x ∧ x < W ∧ 0 < y ∧ y < H then .proceed x y
        else .printedReturn (msgOutOfBounds W H)
      | [.pstr x, .pstr y] =>
        if hasPct x && hasPct y then
          match parseFloat ((pyReplace x "%" "").data), parseFloat ((pyReplace y "%" "").data) with
          | some (mx, kx), some (my, ky) =>
            .proceed (pyTrunc (floatVal mx kx / 100 * (W : ℚ)))
              (pyTrunc (floatVal my ky / 100 * (H : ℚ)))
          | _, _ => .raised msgInvalidXYRaise
        else .proceedRaw x y
      | _ => .raised msgInvalidXY

/-- The text_sequence argument of add_text_to_gif. -/
inductive TextSeq where
  | tnone
  | tint (n : Int)
  | tstr (s : String)
  | tlist (l : List String)

/-- Message printed when a text list has the wrong length. -/
def msgTextLen (count : Nat) : String :=
  "The length of the text sequence must be equal to the number (" ++ pyStrNat count ++
    ") of frames in the gif."

/-- The text-sequence block of add_text_to_gif (timelapse.py lines
501-517): build the per-frame text list, or print and return on a list
of the wrong length. -/
def buildText : TextSeq → Nat → Except String (List String)
  | .tnone, count => .ok ((List.range count).map (fun i => pyStrNat (i + 1)))
  | .tint n, count => .ok ((List.range (count + 1)).map (fun i => pyStrInt (n + (i : Int))))
  | .tstr s, count =>
    match parseIntStr s with
    | some n => .ok ((List.range (count + 1)).map (fun i => pyStrInt (n + (i : Int))))
    | none => .ok (List.replicate count s)
  | .tlist l, count => if l.length ≠ count then .error (msgTextLen count) else .ok l

/-- Widths of the progress bar, one per frame: i * 1.0 / count * W for i
from 1 to count (timelapse.py line 464). -/
def progressBarWidths (count : Nat) (W : Int) : List ℚ :=
  (List.range count).map (fun (i : Nat) => ((i : ℚ) + 1) * 1 / (count : ℚ) * (W : ℚ))

/-- Rectangles of the progress bar, one per frame: from
(0, H - progress_bar_height) to (width, H) (timelapse.py lines 465-467
and 5144-5147). -/
def progressBarShapes (count : Nat) (W H pbh : Int) : List ((ℚ × ℚ) × (ℚ × ℚ)) :=
  (progressBarWidths count W).map (fun x => (((0 : ℚ), (H : ℚ) - (pbh : ℚ)), (x, (H : ℚ))))

/-- A frame written by add_text_to_gif: text drawn at the resolved
coordinates, and the progress-bar rectangle when enabled. -/
structure TextFrame where
  text : String
  xy : Int × Int
  bar : Option ((ℚ × ℚ) × (ℚ × ℚ))

/-- Outcome of add_text_to_gif: the output gif was written with the
given frames, or the function printed a message and returned None
without writing, or an exception escaped. -/
inductive TextGifOutcome where
  | wrote (frames : List TextFrame)
  | returnedNone (msg : String)
  | raised (msg : String)

/-- Model of add_text_to_gif (timelapse.py lines 380-549).  Font
loading is irrelevant to the modelled state and is abstracted away; the
existence of the input gif and the success of Image.open are the
Boolean oracles, and an exception arising inside the final drawing/save
try-block (PIL or I/O) is the oracle bodyError. -/
def add_text_to_gif (inGifExists openOk : Bool) (count : Nat) (W H : Int)
    (xy : PyXY) (ts : TextSeq) (addBar : Bool) (pbh : Int)
    (bodyError : Option String) : TextGifOutcome :=
  if !inGifExists then .returnedNone "The input gif file does not exist."
  else if !openOk then .returnedNone "An error occurred while opening the gif."
  else
    let shapes := progressBarShapes count W H pbh
    match resolveTextXY W H xy with
    | .printedReturn m => .returnedNone m
    | .raised m => .raised m
    | .proceedRaw _ _ =>
      match buildText ts count with
      | .error m => .returnedNone m
      | .ok _ => .returnedNone "TypeError"
    | .proceed x y =>
      match buildText ts count with
      | .error m => .returnedNone m
      | .ok text =>
        match bodyError with
        | some e => .returnedNone e
        | none =>
          .wrote ((List.range count).map (fun i =>
            { text := text.getD i "",
              xy := (x, y),
              bar := if addBar then some (shapes.getD i ((0, 0), (0, 0))) else none }))

/-- Outcome of add_image_to_gif: the logo was pasted at the resolved
coordinates on every frame and the gif written, or None was returned
after printing, or an exception escaped. -/
inductive ImageGifOutcome where
  | wrote (count : Nat) (xy : Int × Int)
  | returnedNone (msg : String)
  | raised (msg : String)

/-- Model of add_image_to_gif (timelapse.py lines 552-681).  When the
logo fails to open, the code prints the error and then dereferences the
None logo, so an AttributeError escapes. -/
def add_image_to_gif (inGifExists logoExists gifOpenOk logoOpenOk : Bool)
    (count : Nat) (W H resizeW resizeH : Int) (xy : PyXY)
    (bodyError : Option String) : ImageGifOutcome :=
  if !inGifExists then .returnedNone "The input gif file does not exist."
  else if !logoExists then .returnedNone "The provided logo file does not exist."
  else if !gifOpenOk then .returnedNone "An error occurred while opening the image."
  else if !logoOpenOk then .raised "AttributeError"
  else
    match resolveImageXY W H resizeW resizeH xy with
    | .printedReturn m => .returnedNone m
    | .raised m => .raised m
    | .proceedRaw _ _ => .returnedNone "TypeError"
    | .proceed x y =>
      match bodyError with
      | some e => .returnedNone e
      | none => .wrote count (x, y)

/-- Outcome of add_progress_bar_to_gif. -/
inductive BarGifOutcome where
  | wrote (shapes : List ((ℚ × ℚ) × (ℚ × ℚ)))
  | returnedNone (msg : String)
  | raised (msg : String)

/-- Model of add_progress_bar_to_gif (timelapse.py lines 5099-5177):
the same shape list as add_text_to_gif, one rectangle per frame; open
failures and body failures are re-raised here rather than printed. -/
def add_progress_bar_to_gif (inGifExists openOk : Bool) (count : Nat)
    (W H pbh : Int) (bodyError : Option String) : BarGifOutcome :=
  if !inGifExists then .returnedNone "The input gif file does not exist."
  else if !openOk then .raised "An error occurred while opening the gif."
  else
    match bodyError with
    | some e => .raised e
    | none => .wrote (progressBarShapes count W H pbh)

/-! ### Encoder-invoking functions over the file-system model -/

/-- The plain ffmpeg gif-to-mp4 command line. -/
def ffmpegMp4Cmd (i o : String) : String :=
  "ffmpeg -loglevel error -i " ++ i ++ " -vcodec libx264 -crf 25 -pix_fmt yuv420p " ++ o

/-- The ffmpeg gif-to-mp4 command line with even-dimension scaling. -/
def ffmpegScaleMp4Cmd (w h : Nat) (i o : String) : String :=
  "ffmpeg -loglevel error -i " ++ i ++ " -vf scale=" ++ pyStrNat w ++ ":" ++ pyStrNat h ++
    " -vcodec libx264 -crf 25 -pix_fmt yuv420p " ++ o

/-- Model of make_gif (timelapse.py lines 104-157) on a list input.
Returns the list of images in frame order together with the resulting
file system, or the message of the escaping exception.  Frame pixel
content, fps and loop count leave no trace in the modelled state. -/
def make_gif (ffmpegInstalled : Bool) (run : String → List String)
    (fs : List String) (images : List String) (out_gif : String)
    (mp4 clean_up : Bool) : Except String (List String × List String) :=
  let sorted := pySort images
  if sorted.isEmpty then .error "IndexError: list index out of range"
  else
    let fs1 := fs ++ [out_gif]
    if mp4 then
      if !ffmpegInstalled then .ok (sorted, fs1)
      else if fileExists fs1 out_gif then
        let out_mp4 := pyReplace out_gif ".gif" ".mp4"
        let fs2 := fs1 ++ run (ffmpegMp4Cmd out_gif out_mp4)
        if fileExists fs2 out_mp4 then
          .ok (sorted, if clean_up then fs2.filter (fun p => !(images.any (strEq p))) else fs2)
        else .error "Failed to create mp4 file."
      else .ok (sorted, if clean_up then fs1.filter (fun p => !(images.any (strEq p))) else fs1)
    else .ok (sorted, if clean_up then fs1.filter (fun p => !(images.any (strEq p))) else fs1)

/-- Model of gif_to_mp4 (timelapse.py lines 160-195); w and h are the
dimensions PIL reads from the input gif. -/
def gif_to_mp4 (ffmpegInstalled : Bool) (run : String → List String)
    (w h : Nat) (fs : List String) (in_gif out_mp4 : String) : Except String (List String) :=
  if !(fileExists fs in_gif) then .error (in_gif ++ " does not exist.")
  else
    let out := if pyEndsWith out_mp4 ".mp4" then out_mp4 else out_mp4 ++ ".mp4"
    if !ffmpegInstalled then .ok fs
    else
      let cmd :=
        if w % 2 = 0 ∧ h % 2 = 0 then ffmpegMp4Cmd in_gif out
        else ffmpegScaleMp4Cmd (w + w % 2) (h + h % 2) in_gif out
      let fs1 := fs ++ run cmd
      if fileExists fs1 out then .ok fs1 else .error "Failed to create mp4 file."

/-- Model of merge_gifs (timelapse.py lines 198-225) on a list input:
one gifsicle invocation, no check of any kind afterwards (the
try/except only guards the argument handling). -/
def merge_gifs (run : String → List String) (fs : List String)
    (in_gifs : List String) (out_gif : String) : Except String (List String) :=
  let joined := String.intercalate " " in_gifs
  .ok (fs ++ run ("gifsicle " ++ joined ++ " > " ++ out_gif))

/-- The ffmpeg gif-to-png command line. -/
def gifToPngCmd (in_gif out_dir pfx : String) : String :=
  "ffmpeg -loglevel error -i " ++ in_gif ++ " -vsync 0 " ++ out_dir ++ "/" ++ pfx ++ "%d.png"

/-- Model of gif_to_png (timelapse.py lines 228-264) with an explicit
output directory: one ffmpeg invocation, then only a progress print. -/
def gif_to_png (run : String → List String) (fs : List String)
    (in_gif out_dir pfx : String) : Except String (List String) :=
  if in_gif.data.contains ' ' then .error "in_gif cannot contain spaces."
  else if !(fileExists fs in_gif) then .error (in_gif ++ " does not exist.")
  else .ok (fs ++ run (gifToPngCmd in_gif out_dir pfx))

/-- The blend expression of the fading filter. -/
def blendFilterExpr : String :=
  "blend=all_expr=\x27A*(if(gte(T,3),1,T/3))+B*(1-(if(gte(T,3),1,T/3)))\x27"

/-- The per-frame input arguments of the fading command. -/
def fadeInputs (count duration : Nat) : String :=
  String.intercalate " " ((List.range count).map (fun i =>
    "-loop 1 -t " ++ pyStrNat duration ++ " -i " ++ pyStrNat (i + 1) ++ ".png"))

/-- One blend filter of the fading command (i ranges over 1..count-1). -/
def fadeFilter (i : Nat) : String :=
  if i = 1 then "\"[1:v][0:v]" ++ blendFilterExpr ++ "[v0];"
  else
    "[" ++ pyStrNat i ++ ":v][" ++ pyStrNat (i - 1) ++ ":v]" ++ blendFilterExpr ++
      "[v" ++ pyStrNat (i - 1) ++ "];"

/-- The final concat filter of the fading command. -/
def fadeLastFilter (count : Nat) : String :=
  String.join ((List.range (count - 1)).map (fun i => "[v" ++ pyStrNat i ++ "]")) ++
    "concat=n=" ++ pyStrNat (count - 1) ++ ":v=1:a=0[v]\" -map \"[v]\""

/-- The assembled filter list of the fading command. -/
def fadeFilters (count : Nat) : String :=
  String.intercalate " "
    (((List.range (count - 1)).map (fun i => fadeFilter (i + 1))) ++ [fadeLastFilter count])

/-- The full fading ffmpeg command line. -/
def fadeCmd (count duration : Nat) (out_gif : String) : String :=
  "ffmpeg -y -loglevel error " ++ fadeInputs count duration ++ " -filter_complex " ++
    fadeFilters count ++ " " ++ out_gif

/-- Model of gif_fading (timelapse.py lines 267-377) on a local file:
validations, the gif_to_png call, then the fading ffmpeg invocation
with no check on the output; pngCount is the number of png frames the
first invocation left in the temp directory. -/
def gif_fading (run : String → List String) (fs : List String)
    (in_gif out_gif tmpDir : String) (duration pngCount : Nat) : Except String (List String) :=
  if !(pyEndsWith in_gif ".gif") then .error "in_gif must be a gif file."
  else if in_gif.data.contains ' ' then .error "The filename cannot contain spaces."
  else if !(fileExists fs in_gif) then .error (in_gif ++ " does not exist.")
  else
    match gif_to_png run fs in_gif tmpDir "" with
    | .error e => .error e
    | .ok fs1 => .ok (fs1 ++ run (fadeCmd pngCount duration out_gif))

/-- The zero-padded per-frame thumbnail names of create_timelapse
(timelapse.py lines 1066-1072): basename, underscore, str(i+1) zero
filled to the digit count of the frame count, with extension jpg, under
the output directory. -/
def thumbName (out_dir basename : String) (count i : Nat) : String :=
  out_dir ++ "/" ++ basename ++ "_" ++
    String.mk (zfillCh (pyStrNatChars count).length (pyStrNatChars (i + 1))) ++ ".jpg"

/-- The list of thumbnail names, one per frame index. -/
def thumbnailNames (out_dir basename : String) (count : Nat) : List String :=
  (List.range count).map (thumbName out_dir basename count)

/-- Lexicographic less-than on digit-value lists, mirror of `lexLtCh`. -/
def lexLtNat : List Nat → List Nat → Bool
  | [], [] => false
  | [], _ :: _ => true
  | _ :: _, [] => false
  | a :: s, b :: t => if a < b then true else if b < a then false else lexLtNat s t

/-- Decimal value of a big-endian digit list. -/
def valOfD (l : List Nat) : Nat := l.foldl (fun a d => 10 * a + d) 0

/-! ### Helper lemmas: code-point lexicographic order and decimal digits -/

theorem lexLtCh_append_left (p x y : List Char) :
    lexLtCh (p ++ x) (p ++ y) = lexLtCh x y := by
  induction p with
  | nil => rfl
  | cons a p ih => simp [lexLtCh, lt_self_iff_false, ih]

theorem lexLtCh_append_of_lt :
    ∀ x y s t : List Char, x.length = y.length → lexLtCh x y = true →
      lexLtCh (x ++ s) (y ++ t) = true := by
  intro x
  induction x with
  | nil =>
    intro y s t hlen h
    cases y with
    | nil => simp [lexLtCh] at h
    | cons b v => simp at hlen
  | cons a u ih =>
    intro y s t hlen h
    cases y with
    | nil => simp at hlen
    | cons b v =>
      simp only [List.cons_append]
      simp only [lexLtCh] at h ⊢
      by_cases h1 : a.toNat < b.toNat
      · simp [h1]
      · by_cases h2 : b.toNat < a.toNat
        · simp [h1, h2] at h
        · simp only [h1, h2, if_false] at h ⊢
          exact ih v s t (by simpa using hlen) h

theorem lexLtCh_asymm :
    ∀ x y : List Char, lexLtCh x y = true → lexLtCh y x = false := by
  intro x
  induction x with
  | nil =>
    intro y h
    cases y with
    | nil => simp [lexLtCh] at h
    | cons b v => simp [lexLtCh]
  | cons a u ih =>
    intro y h
    cases y with
    | nil => simp [lexLtCh] at h
    | cons b v =>
      simp only [lexLtCh] at h ⊢
      by_cases h1 : a.toNat < b.toNat
      · have h2 : ¬ b.toNat < a.toNat := Nat.lt_asymm h1
        simp [h1, h2]
      · by_cases h2 : b.toNat < a.toNat
        · simp [h1, h2] at h
        · simp only [h1, h2, if_false] at h ⊢
          exact ih v h

theorem foldl_decimal (l : List Nat) :
    ∀ a : Nat, l.foldl (fun x d => 10 * x + d) a = a * 10 ^ l.length + valOfD l := by
  induction l with
  | nil => intro a; simp [valOfD]
  | cons d t ih =>
    intro a
    have hv : valOfD (d :: t) = d * 10 ^ t.length + valOfD t := by
      show t.foldl _ (10 * 0 + d) = _
      rw [ih (10 * 0 + d)]
      ring
    show t.foldl _ (10 * a + d) = a * 10 ^ (d :: t).length + valOfD (d :: t)
    rw [ih (10 * a + d), hv, List.length_cons]
    ring

theorem valOfD_cons (d : Nat) (t : List Nat) :
    valOfD (d :: t) = d * 10 ^ t.length + valOfD t := by
  show t.foldl _ (10 * 0 + d) = _
  rw [foldl_decimal t (10 * 0 + d)]
  ring

theorem valOfD_lt_pow (l : List Nat) (h : ∀ d ∈ l, d < 10) :
    valOfD l < 10 ^ l.length := by
  induction l with
  | nil => simp [valOfD]
  | cons d t ih =>
    rw [valOfD_cons, List.length_cons]
    have hd : d < 10 := h d (List.mem_cons_self d t)
    have ht : valOfD t < 10 ^ t.length := ih (fun e he => h e (List.mem_cons_of_mem d he))
    calc d * 10 ^ t.length + valOfD t < d * 10 ^ t.length + 10 ^ t.length :=
          Nat.add_lt_add_left ht _
      _ = (d + 1) * 10 ^ t.length := by ring
      _ ≤ 10 * 10 ^ t.length := Nat.mul_le_mul_right _ hd
      _ = 10 ^ (t.length + 1) := by ring

theorem lexLtNat_of_val_lt :
    ∀ x y : List Nat, x.length = y.length → (∀ d ∈ x, d < 10) → (∀ d ∈ y, d < 10) →
      valOfD x < valOfD y → lexLtNat x y = true := by
  intro x
  induction x with
  | nil =>
    intro y hlen _ _ hv
    cases y with
    | nil => simp [valOfD] at hv
    | cons b t => simp at hlen
  | cons a s ih =>
    intro y hlen hx hy hv
    cases y with
    | nil => simp at hlen
    | cons b t =>
      have hlen' : s.length = t.length := by simpa using hlen
      rw [valOfD_cons, valOfD_cons, hlen'] at hv
      rcases Nat.lt_trichotomy a b with h | h | h
      · simp [lexLtNat, h]
      · subst h
        have hv' : valOfD s < valOfD t := by omega
        simp only [lexLtNat, lt_self_iff_false, if_false]
        exact ih t hlen' (fun e he => hx e (List.mem_cons_of_mem a he))
          (fun e he => hy e (List.mem_cons_of_mem a he)) hv'
      · exfalso
        have h1 : valOfD t < 10 ^ t.length :=
          valOfD_lt_pow t (fun e he => hy e (List.mem_cons_of_mem b he))
        have c1 : b * 10 ^ t.length + valOfD t < (b + 1) * 10 ^ t.length := by
          have := Nat.add_lt_add_left h1 (b * 10 ^ t.length)
          calc b * 10 ^ t.length + valOfD t < b * 10 ^ t.length + 10 ^ t.length := this
            _ = (b + 1) * 10 ^ t.length := by ring
        have c2 : (b + 1) * 10 ^ t.length ≤ a * 10 ^ t.length :=
          Nat.mul_le_mul_right _ h
        exact absurd (((hv.trans c1).trans_le c2).trans_le (Nat.le_add_right _ _))
          (lt_irrefl _)

theorem digitChar_toNat_lt :
    ∀ a, a < 10 → ∀ b, b < 10 →
      (((Nat.digitChar a).toNat < (Nat.digitChar b).toNat) ↔ a < b) := by decide

theorem lexLtCh_map_digitChar :
    ∀ x y : List Nat, (∀ d ∈ x, d < 10) → (∀ d ∈ y, d < 10) →
      lexLtCh (x.map Nat.digitChar) (y.map Nat.digitChar) = lexLtNat x y := by
  intro x
  induction x with
  | nil =>
    intro y _ _
    cases y with
    | nil => rfl
    | cons b t => rfl
  | cons a s ih =>
    intro y hx hy
    cases y with
    | nil => rfl
    | cons b t =>
      have ha : a < 10 := hx a (List.mem_cons_self a s)
      have hb : b < 10 := hy b (List.mem_cons_self b t)
      have e1 : ((Nat.digitChar a).toNat < (Nat.digitChar b).toNat) = (a < b) :=
        propext (digitChar_toNat_lt a ha b hb)
      have e2 : ((Nat.digitChar b).toNat < (Nat.digitChar a).toNat) = (b < a) :=
        propext (digitChar_toNat_lt b hb a ha)
      simp only [List.map_cons, lexLtCh, lexLtNat, e1, e2]
      rw [ih t (fun e he => hx e (List.mem_cons_of_mem a he))
        (fun e he => hy e (List.mem_cons_of_mem b he))]

theorem valOfD_zero_cons (l : List Nat) : valOfD (0 :: l) = valOfD l := rfl

theorem valOfD_replicate_zero_append (k : Nat) (x : List Nat) :
    valOfD (List.replicate k 0 ++ x) = valOfD x := by
  induction k with
  | zero => rfl
  | succ k ih => simpa [List.replicate_succ, valOfD_zero_cons] using ih

theorem valOfD_reverse_ofDigits :
    ∀ l : List Nat, valOfD l.reverse = Nat.ofDigits 10 l := by
  intro l
  induction l with
  | nil => rfl
  | cons d L ih =>
    rw [List.reverse_cons]
    have h1 : valOfD (L.reverse ++ [d]) = 10 * valOfD L.reverse + d := by
      rw [valOfD, List.foldl_append]
      rfl
    rw [h1, ih, Nat.ofDigits_cons]
    ring

theorem valOfD_decDigits (n : Nat) : valOfD (decDigits n) = n := by
  rw [decDigits, valOfD_reverse_ofDigits]
  exact_mod_cast Nat.ofDigits_digits 10 n

theorem decDigits_lt (n : Nat) : ∀ d ∈ decDigits n, d < 10 := by
  intro d hd
  exact Nat.digits_lt_base (by norm_num) (List.mem_reverse.mp hd)

theorem decDigits_len_mono {a b : Nat} (h : a ≤ b) (ha : a ≠ 0) :
    (decDigits a).length ≤ (decDigits b).length := by
  have hb : b ≠ 0 := by omega
  rw [decDigits, decDigits, List.length_reverse, List.length_reverse,
    Nat.digits_len 10 a (by norm_num) ha, Nat.digits_len 10 b (by norm_num) hb]
  exact Nat.succ_le_succ (Nat.log_mono_right h)

theorem zfillCh_map_digitChar (w : Nat) (x : List Nat) :
    zfillCh w (x.map Nat.digitChar) = (List.replicate (w - x.length) 0 ++ x).map Nat.digitChar := by
  rw [zfillCh, List.map_append, List.map_replicate, List.length_map]
  rfl

theorem zfill_lt {a b w : Nat} (ha : 0 < a) (hab : a < b)
    (hw : (decDigits b).length ≤ w) :
    lexLtCh (zfillCh w (pyStrNatChars a)) (zfillCh w (pyStrNatChars b)) = true := by
  have ha0 : a ≠ 0 := Nat.pos_iff_ne_zero.mp ha
  have hb0 : b ≠ 0 := by omega
  have hwa : (decDigits a).length ≤ w := le_trans (decDigits_len_mono (le_of_lt hab) ha0) hw
  rw [pyStrNatChars, if_neg ha0, pyStrNatChars, if_neg hb0,
    zfillCh_map_digitChar, zfillCh_map_digitChar, lexLtCh_map_digitChar]
  · apply lexLtNat_of_val_lt
    · simp only [List.length_append, List.length_replicate]
      omega
    · intro d hd
      rcases List.mem_append.mp hd with h | h
      · have := List.eq_of_mem_replicate h; omega
      · exact decDigits_lt a d h
    · intro d hd
      rcases List.mem_append.mp hd with h | h
      · have := List.eq_of_mem_replicate h; omega
      · exact decDigits_lt b d h
    · rw [valOfD_replicate_zero_append, valOfD_replicate_zero_append,
        valOfD_decDigits, valOfD_decDigits]
      exact hab
  · intro d hd
    rcases List.mem_append.mp hd with h | h
    · have := List.eq_of_mem_replicate h; omega
    · exact decDigits_lt a d h
  · intro d hd
    rcases List.mem_append.mp hd with h | h
    · have := List.eq_of_mem_replicate h; omega
    · exact decDigits_lt b d h

theorem mk_data (l : List Char) : (String.mk l).data = l := rfl

theorem zfillCh_length {w : Nat} {s : List Char} (h : s.length ≤ w) :
    (zfillCh w s).length = w := by
  simp only [zfillCh, List.length_append, List.length_replicate]
  omega

theorem pyStrNatChars_length {n : Nat} (h : n ≠ 0) :
    (pyStrNatChars n).length = (decDigits n).length := by
  rw [pyStrNatChars, if_neg h, List.length_map]

theorem thumbName_lt {o bs : String} {count i j : Nat} (hij : i < j) (hj : j < count) :
    pyStrLt (thumbName o bs count i) (thumbName o bs count j) = true := by
  have hc0 : count ≠ 0 := by omega
  have hwc : (pyStrNatChars count).length = (decDigits count).length :=
    pyStrNatChars_length hc0
  have hwj : (decDigits (j + 1)).length ≤ (pyStrNatChars count).length := by
    rw [hwc]
    exact decDigits_len_mono (by omega) (by omega)
  have hwi : (decDigits (i + 1)).length ≤ (pyStrNatChars count).length :=
    le_trans (decDigits_len_mono (by omega) (by omega)) hwj
  have hlt : lexLtCh (zfillCh (pyStrNatChars count).length (pyStrNatChars (i + 1)))
      (zfillCh (pyStrNatChars count).length (pyStrNatChars (j + 1))) = true :=
    zfill_lt (by omega) (by omega) hwj
  have hleni : (zfillCh (pyStrNatChars count).length (pyStrNatChars (i + 1))).length =
      (pyStrNatChars count).length := by
    apply zfillCh_length
    rw [pyStrNatChars_length (by omega : i + 1 ≠ 0)]
    exact hwi
  have hlenj : (zfillCh (pyStrNatChars count).length (pyStrNatChars (j + 1))).length =
      (pyStrNatChars count).length := by
    apply zfillCh_length
    rw [pyStrNatChars_length (by omega : j + 1 ≠ 0)]
    exact hwj
  show lexLtCh (thumbName o bs count i).data (thumbName o bs count j).data = true
  simp only [thumbName, String.data_append, mk_data, List.append_assoc]
  rw [lexLtCh_append_left, lexLtCh_append_left, lexLtCh_append_left, lexLtCh_append_left]
  exact lexLtCh_append_of_lt _ _ _ _ (hleni.trans hlenj.symm) hlt

theorem thumbnailNames_pairwise (o bs : String) (count : Nat) :
    List.Pairwise (fun a b => pyStrLt a b = true) (thumbnailNames o bs count) := by
  rw [thumbnailNames, List.pairwise_map]
  refine List.Pairwise.imp_of_mem ?_ (List.pairwise_lt_range count)
  intro a b _ hb hab
  exact thumbName_lt hab (List.mem_range.mp hb)

theorem thumbnailNames_sorted (o bs : String) (count : Nat) :
    List.Sorted pySortLe (thumbnailNames o bs count) := by
  refine (thumbnailNames_pairwise o bs count).imp ?_
  intro a b hab
  show pyStrLe a b = true
  have := lexLtCh_asymm _ _ hab
  simp [pyStrLe, pyStrLt, this]

theorem pySort_thumbnailNames (o bs : String) (count : Nat) :
    pySort (thumbnailNames o bs count) = thumbnailNames o bs count := by
  rw [pySort]
  exact List.Sorted.insertionSort_eq (thumbnailNames_sorted o bs count)

/-! ### Claim theorems -/

/-- C6: make_gif sorts its input file list before assembling frames, and
the zero-padded thumbnail names of create_timelapse (padding width equal
to the digit count of the frame count) make that lexicographic order
coincide with the temporal (index) order of the composites, for every
frame count: the name list is strictly increasing in the code-point
order used by the sort, the sort leaves it unchanged, and make_gif on
that list assembles the frames in exactly that order. -/
theorem C6_thumbnail_order (out_dir basename : String) (count n : Nat)
    (ffmpegInstalled : Bool) (run : String → List String) (fs : List String)
    (out_gif : String) :
    List.Pairwise (fun a b => pyStrLt a b = true) (thumbnailNames out_dir basename count)
    ∧ pySort (thumbnailNames out_dir basename count) = thumbnailNames out_dir basename count
    ∧ make_gif ffmpegInstalled run fs (thumbnailNames out_dir basename (n + 1)) out_gif
        false false
        = .ok (thumbnailNames out_dir basename (n + 1), fs ++ [out_gif]) := by
  refine ⟨thumbnailNames_pairwise _ _ _, pySort_thumbnailNames _ _ _, ?_⟩
  have hs := pySort_thumbnailNames out_dir basename (n + 1)
  have hne : (thumbnailNames out_dir basename (n + 1)).isEmpty = false := by
    simp [thumbnailNames, List.range_succ_eq_map]
  simp [make_gif, hs, hne]

/-- C1: for every frequency and every date d of the date sequence,
create_timeseries produces exactly one composite per time bucket, namely
the named reducer applied to the images whose timestamp lies in
[d, d advanced by one frequency unit) (three months when the frequency
is quarter); and with drop_empty, exactly the dates whose bucket holds
no source image are excluded. -/
theorem C1_create_timeseries_buckets (col : List SrcImage) (dates : List Nat)
    (freq : Frequency) (adv : Nat → Frequency → Nat → Nat) (reducer : List Int → Int) :
    create_timeseries col dates freq adv reducer none id false
      = dates.map (fun d =>
          { time_start := d,
            emptyFlag := if (filterDate col d (bucketEnd adv freq d)).length = 0 then 1 else 0,
            val := reducer ((filterDate col d (bucketEnd adv freq d)).map SrcImage.val) })
    ∧ create_timeseries col dates freq adv reducer none id true
      = (dates.filter (fun d => !(filterDate col d (bucketEnd adv freq d)).isEmpty)).map
          (create_image col adv freq reducer none id) := by
  constructor
  · rfl
  · show (dates.map (create_image col adv freq reducer none id)).filter
        (fun im => im.emptyFlag == 0) = _
    rw [List.filter_map]
    congr 1
    apply List.filter_congr
    intro d _
    simp only [Function.comp_apply]
    cases hsub : filterDate col d (bucketEnd adv freq d) with
    | nil => simp [create_image, hsub]
    | cons a l => simp [create_image, hsub]

/-- C9: add_overlay neither adds nor removes an image, and every blended
image keeps the system:time_start property of its source image. -/
theorem C9_add_overlay_preserves_time (blend : Int → Int → Int) (overlayPix : Int)
    (col : List EEImage) :
    (add_overlay blend overlayPix col).length = col.length
    ∧ (add_overlay blend overlayPix col).map (fun im => im.get "system:time_start")
        = col.map (fun im => im.get "system:time_start") := by
  constructor
  · simp [add_overlay]
  · rw [add_overlay, List.map_map]
    apply List.map_congr_left
    intro img _
    simp only [EEImage.get, Function.comp_apply]
    cases h : List.lookup "system:time_start" img.props with
    | none => rfl
    | some t => simp [List.lookup]

theorem getD_map_range {α : Type} {f : Nat → α} {i k : Nat} (h : i < k) (d : α) :
    ((List.range k).map f).getD i d = f i := by
  simp [List.getD_eq_getElem?_getD, List.getElem?_map, List.getElem?_range h]

/-- C5: with add_progress_bar, the bar drawn on the i-th frame (i from 1
to count) is the rectangle from (0, H - progress_bar_height) to
(i*W/count, H); its width is strictly increasing across frames and
reaches exactly W on the last frame; add_progress_bar_to_gif draws
exactly these shapes, and add_text_to_gif attaches the i-th shape to the
i-th frame. -/
theorem C5_progress_bar (n : Nat) (W H pbh : Int) (hW : (0 : Int) < W) :
    (∀ i, i < n + 1 →
      (progressBarShapes (n + 1) W H pbh).getD i ((0, 0), (0, 0))
        = (((0 : ℚ), (H : ℚ) - (pbh : ℚ)), (((i : ℚ) + 1) * (W : ℚ) / ((n : ℚ) + 1), (H : ℚ))))
    ∧ (∀ i j, i < j → j < n + 1 →
      (progressBarWidths (n + 1) W).getD i 0 < (progressBarWidths (n + 1) W).getD j 0)
    ∧ (progressBarWidths (n + 1) W).getD n 0 = (W : ℚ)
    ∧ add_progress_bar_to_gif true true (n + 1) W H pbh none
        = .wrote (progressBarShapes (n + 1) W H pbh)
    ∧ (∀ xy ts x y text, resolveTextXY W H xy = .proceed x y →
        buildText ts (n + 1) = .ok text →
        add_text_to_gif true true (n + 1) W H xy ts true pbh none
          = .wrote ((List.range (n + 1)).map (fun i =>
              { text := text.getD i "",
                xy := (x, y),
                bar := some ((progressBarShapes (n + 1) W H pbh).getD i ((0, 0), (0, 0))) }))) := by
  have hwidth : ∀ i, i < n + 1 →
      (progressBarWidths (n + 1) W).getD i 0 = ((i : ℚ) + 1) * (W : ℚ) / ((n : ℚ) + 1) := by
    intro i hi
    rw [progressBarWidths, getD_map_range hi]
    push_cast
    ring
  refine ⟨?_, ?_, ?_, ?_, ?_⟩
  · intro i hi
    rw [progressBarShapes, progressBarWidths, List.map_map, getD_map_range hi]
    simp only [Function.comp_apply]
    have hgi : ((i : ℚ) + 1) * 1 / (((n + 1 : Nat)) : ℚ) * (W : ℚ)
        = ((i : ℚ) + 1) * (W : ℚ) / ((n : ℚ) + 1) := by
      push_cast
      ring
    rw [hgi]
  · intro i j hij hj
    rw [hwidth i (lt_trans hij hj), hwidth j hj]
    have hWq : (0 : ℚ) < (W : ℚ) := by exact_mod_cast hW
    have hc : (0 : ℚ) < (n : ℚ) + 1 := by positivity
    gcongr
  · rw [hwidth n (by omega), mul_comm, mul_div_assoc, div_self (by positivity), mul_one]
  · rfl
  · intro xy ts x y text hxy ht
    simp [add_text_to_gif, hxy, ht]

/-- Witness for C5 at count 3, W 6, H 4, bar height 1. -/
theorem C5_progress_bar_witness :
    (progressBarWidths (2 + 1) 6).getD 2 0 = ((6 : Int) : ℚ)
    ∧ add_progress_bar_to_gif true true (2 + 1) 6 4 1 none = .wrote (progressBarShapes (2 + 1) 6 4 1)
    ∧ (progressBarWidths (2 + 1) 6).getD 0 0 < (progressBarWidths (2 + 1) 6).getD 2 0 := by
  obtain ⟨h1, h2, h3, h4, h5⟩ := C5_progress_bar 2 6 4 1 (by decide)
  exact ⟨h3, h4, h2 0 2 (by decide) (by decide)⟩

theorem resolveTextXY_int (W H x y : Int) :
    resolveTextXY W H (.pyseq true [.pint x, .pint y])
      = if 0 < x ∧ x < W ∧ 0 < y ∧ y < H then .proceed x y
        else .printedReturn (msgOutOfBounds W H) := rfl

theorem resolveImageXY_int (W H rW rH x y : Int) :
    resolveImageXY W H rW rH (.pyseq true [.pint x, .pint y])
      = if 0 < x ∧ x < W ∧ 0 < y ∧ y < H then .proceed x y
        else .printedReturn (msgOutOfBounds W H) := rfl

theorem resolveTextXY_pct (W H : Int) (x y : String) (mx my : Int) (kx ky : Nat)
    (hx : hasPct x = true) (hy : hasPct y = true)
    (hpx : parseFloat ((pyReplace x "%" "").data) = some (mx, kx))
    (hpy : parseFloat ((pyReplace y "%" "").data) = some (my, ky)) :
    resolveTextXY W H (.pyseq true [.pstr x, .pstr y])
      = .proceed (pyTrunc (floatVal mx kx / 100 * (W : ℚ)))
          (pyTrunc (floatVal my ky / 100 * (H : ℚ))) := by
  simp [resolveTextXY, hx, hy, hpx, hpy]

/-- C2: an integer pair that fails to lie within the frame causes both
add_text_to_gif and add_image_to_gif to print the out-of-bounds message
and return without writing any output, and the text or logo is drawn
only when the pair lies within [0, W] x [0, H]. -/
theorem C2_xy_bounds (W H x y : Int) (count : Nat) (ts : TextSeq) (addBar : Bool)
    (pbh : Int) (err : Option String) (countI : Nat) (rW rH : Int) (errI : Option String) :
    (¬(0 ≤ x ∧ x ≤ W ∧ 0 ≤ y ∧ y ≤ H) →
      add_text_to_gif true true count W H (.pyseq true [.pint x, .pint y]) ts addBar pbh err
        = .returnedNone (msgOutOfBounds W H)
      ∧ add_image_to_gif true true true true countI W H rW rH
          (.pyseq true [.pint x, .pint y]) errI
        = .returnedNone (msgOutOfBounds W H))
    ∧ (∀ frames,
        add_text_to_gif true true count W H (.pyseq true [.pint x, .pint y]) ts addBar pbh err
          = .wrote frames → 0 ≤ x ∧ x ≤ W ∧ 0 ≤ y ∧ y ≤ H)
    ∧ (∀ c xy0,
        add_image_to_gif true true true true countI W H rW rH
          (.pyseq true [.pint x, .pint y]) errI
          = .wrote c xy0 → 0 ≤ x ∧ x ≤ W ∧ 0 ≤ y ∧ y ≤ H) := by
  by_cases hb : 0 < x ∧ x < W ∧ 0 < y ∧ y < H
  · have hcl : 0 ≤ x ∧ x ≤ W ∧ 0 ≤ y ∧ y ≤ H := by
      obtain ⟨h1, h2, h3, h4⟩ := hb
      omega
    exact ⟨fun h => absurd hcl h, fun _ _ => hcl, fun _ _ _ => hcl⟩
  · have h1 : add_text_to_gif true true count W H (.pyseq true [.pint x, .pint y]) ts
        addBar pbh err = .returnedNone (msgOutOfBounds W H) := by
      simp [add_text_to_gif, resolveTextXY_int, hb]
    have h2 : add_image_to_gif true true true true countI W H rW rH
        (.pyseq true [.pint x, .pint y]) errI = .returnedNone (msgOutOfBounds W H) := by
      simp [add_image_to_gif, resolveImageXY_int, hb]
    refine ⟨fun _ => ⟨h1, h2⟩, ?_, ?_⟩
    · intro frames hfr
      rw [h1] at hfr
      exact absurd hfr (by simp)
    · intro c xy0 hfr
      rw [h2] at hfr
      exact absurd hfr (by simp)

/-- Witness for C2 at the out-of-bounds pair (20, 5) on a 10 x 10 gif. -/
theorem C2_xy_bounds_witness :
    add_text_to_gif true true 2 10 10 (.pyseq true [.pint 20, .pint 5]) .tnone true 5 none
      = .returnedNone (msgOutOfBounds 10 10)
    ∧ add_image_to_gif true true true true 2 10 10 3 3 (.pyseq true [.pint 20, .pint 5]) none
      = .returnedNone (msgOutOfBounds 10 10) :=
  (C2_xy_bounds 10 10 20 5 2 .tnone true 5 none 2 3 3 none).1 (by decide)

/-- C4: a percentage pair with numeric components resolves to
(int(p/100*W), int(q/100*H)) before drawing, and a percentage pair that
fails to parse raises an exception. -/
theorem C4_percent_resolution (W H : Int) (x y : String) (mx my : Int) (kx ky : Nat) :
    (hasPct x = true → hasPct y = true →
      parseFloat ((pyReplace x "%" "").data) = some (mx, kx) →
      parseFloat ((pyReplace y "%" "").data) = some (my, ky) →
      resolveTextXY W H (.pyseq true [.pstr x, .pstr y])
        = .proceed (pyTrunc (floatVal mx kx / 100 * (W : ℚ)))
            (pyTrunc (floatVal my ky / 100 * (H : ℚ))))
    ∧ (hasPct x = true → hasPct y = true →
      parseFloat ((pyReplace x "%" "").data) = none →
      resolveTextXY W H (.pyseq true [.pstr x, .pstr y]) = .raised msgInvalidXYRaise)
    ∧ (hasPct x = true → hasPct y = true →
      parseFloat ((pyReplace y "%" "").data) = none →
      resolveTextXY W H (.pyseq true [.pstr x, .pstr y]) = .raised msgInvalidXYRaise) := by
  refine ⟨fun hx hy hpx hpy => resolveTextXY_pct W H x y mx my kx ky hx hy hpx hpy, ?_, ?_⟩
  · intro hx hy hpx
    simp [resolveTextXY, hx, hy, hpx]
  · intro hx hy hpy
    cases hpx : parseFloat ((pyReplace x "%" "").data) with
    | none => simp [resolveTextXY, hx, hy, hpx]
    | some p => simp [resolveTextXY, hx, hy, hpx, hpy]

/-- Witness for C4: (50%, 25%) on a 200 x 100 frame, and a non-numeric
pair that raises. -/
theorem C4_percent_resolution_witness :
    resolveTextXY 200 100 (.pyseq true [.pstr "50%", .pstr "25%"])
      = .proceed (pyTrunc (floatVal 50 0 / 100 * ((200 : Int) : ℚ)))
          (pyTrunc (floatVal 25 0 / 100 * ((100 : Int) : ℚ)))
    ∧ resolveTextXY 200 100 (.pyseq true [.pstr "a%", .pstr "25%"]) = .raised msgInvalidXYRaise :=
  ⟨(C4_percent_resolution 200 100 "50%" "25%" 50 25 0 0).1 rfl rfl (by decide) (by decide),
    (C4_percent_resolution 200 100 "a%" "25%" 0 0 0 0).2.1 rfl rfl (by decide)⟩

/-- C7: a 4-element coordinate tuple is rejected by add_text_to_gif with
the invalid-format message, returning None without raising and without
writing an output gif. -/
theorem C7_four_tuple (count : Nat) (W H : Int) (e1 e2 e3 e4 : PyElem) (ts : TextSeq)
    (addBar : Bool) (pbh : Int) (err : Option String) :
    resolveTextXY W H (.pyseq true [e1, e2, e3, e4]) = .printedReturn msgInvalidXY
    ∧ add_text_to_gif true true count W H (.pyseq true [e1, e2, e3, e4]) ts addBar pbh err
      = .returnedNone msgInvalidXY := by
  have hres : resolveTextXY W H (.pyseq true [e1, e2, e3, e4]) = .printedReturn msgInvalidXY := by
    cases e1 <;> cases e2 <;> rfl
  exact ⟨hres, by simp [add_text_to_gif, hres]⟩

/-- C8: any exception arising inside the frame-drawing/saving try-block
of add_text_to_gif is swallowed: the message is printed and None is
returned, and no exception escapes even though the output gif was never
written. -/
theorem C8_swallowed (count : Nat) (W H : Int) (xy : PyXY) (ts : TextSeq) (addBar : Bool)
    (pbh : Int) (x y : Int) (text : List String) (e : String)
    (hxy : resolveTextXY W H xy = .proceed x y)
    (ht : buildText ts count = .ok text) :
    add_text_to_gif true true count W H xy ts addBar pbh (some e) = .returnedNone e
    ∧ ∀ m, add_text_to_gif true true count W H xy ts addBar pbh (some e) ≠ .raised m := by
  have h1 : add_text_to_gif true true count W H xy ts addBar pbh (some e)
      = .returnedNone e := by
    simp [add_text_to_gif, hxy, ht]
  refine ⟨h1, ?_⟩
  intro m
  rw [h1]
  simp

/-- Witness for C8: a drawing failure on a valid input is printed, not
propagated. -/
theorem C8_swallowed_witness :
    add_text_to_gif true true 2 10 10 (.pyseq true [.pint 1, .pint 1]) .tnone true 5
      (some "cannot write mode P as GIF") = .returnedNone "cannot write mode P as GIF" :=
  (C8_swallowed 2 10 10 (.pyseq true [.pint 1, .pint 1]) .tnone true 5 1 1
    ((List.range 2).map (fun i => pyStrNat (i + 1))) "cannot write mode P as GIF"
    (by decide) rfl).1

/-- C10: a numeric percentage pair bypasses the frame-bounds check: it
is accepted and drawing proceeds whatever the resolved pixel position,
while an out-of-bounds integer pair (such as the resolved equivalent) is
rejected. -/
theorem C10_percent_bypasses_bounds (W H : Int) (x y : String) (mx my : Int) (kx ky : Nat)
    (count : Nat) (ts : TextSeq) (addBar : Bool) (pbh : Int) (text : List String)
    (hx : hasPct x = true) (hy : hasPct y = true)
    (hpx : parseFloat ((pyReplace x "%" "").data) = some (mx, kx))
    (hpy : parseFloat ((pyReplace y "%" "").data) = some (my, ky))
    (ht : buildText ts count = .ok text) :
    resolveTextXY W H (.pyseq true [.pstr x, .pstr y])
      = .proceed (pyTrunc (floatVal mx kx / 100 * (W : ℚ)))
          (pyTrunc (floatVal my ky / 100 * (H : ℚ)))
    ∧ add_text_to_gif true true count W H (.pyseq true [.pstr x, .pstr y]) ts addBar pbh none
      = .wrote ((List.range count).map (fun i =>
          { text := text.getD i "",
            xy := (pyTrunc (floatVal mx kx / 100 * (W : ℚ)),
              pyTrunc (floatVal my ky / 100 * (H : ℚ))),
            bar := if addBar then
                some ((progressBarShapes count W H pbh).getD i ((0, 0), (0, 0)))
              else none }))
    ∧ (∀ X Y : Int, ¬(0 < X ∧ X < W ∧ 0 < Y ∧ Y < H) →
        resolveTextXY W H (.pyseq true [.pint X, .pint Y])
          = .printedReturn (msgOutOfBounds W H)) := by
  have hres := resolveTextXY_pct W H x y mx my kx ky hx hy hpx hpy
  refine ⟨hres, ?_, ?_⟩
  · simp [add_text_to_gif, hres, ht]
  · intro X Y h
    rw [resolveTextXY_int]
    exact if_neg h

/-- Witness for C10: (150%, 50%) on a 10 x 10 gif resolves to x = 15,
outside the frame, yet is drawn; the integer pair (15, 5) is rejected. -/
theorem C10_percent_bypasses_bounds_witness :
    resolveTextXY 10 10 (.pyseq true [.pstr "150%", .pstr "50%"])
      = .proceed (pyTrunc (floatVal 150 0 / 100 * ((10 : Int) : ℚ)))
          (pyTrunc (floatVal 50 0 / 100 * ((10 : Int) : ℚ)))
    ∧ resolveTextXY 10 10 (.pyseq true [.pint 15, .pint 5])
      = .printedReturn (msgOutOfBounds 10 10) := by
  obtain ⟨w1, _, w3⟩ := C10_percent_bypasses_bounds 10 10 "150%" "50%" 150 50 0 0 1 .tnone
    false 5 ((List.range 1).map (fun i => pyStrNat (i + 1))) rfl rfl (by decide) (by decide) rfl
  exact ⟨w1, w3 15 5 (by decide)⟩

theorem fileExists_self_append (fs : List String) (p : String) :
    fileExists (fs ++ [p]) p = true := by
  simp [fileExists, strEq, List.any_append]

/-- Counterexample to C3: merge_gifs invokes gifsicle and, when the
encoder produces no output file, still returns successfully with no
existence check and no failure signal. -/
theorem C3_counterexample :
    merge_gifs (fun _ => []) ["a.gif"] ["a.gif"] "out.gif" = .ok ["a.gif"]
    ∧ fileExists ["a.gif"] "out.gif" = false := by
  constructor
  · simp [merge_gifs]
  · decide

/-- C3 as amended: only make_gif with mp4 and gif_to_mp4 follow the
encoder call with an existence check on the output and raise when it is
missing; merge_gifs, gif_to_png and gif_fading invoke the encoder and
signal nothing when the output file does not exist. -/
theorem C3_existence_checks (run : String → List String) (fs : List String)
    (in_gif out_mp4 out_gif out_dir pfx tmpDir : String) (images in_gifs : List String)
    (w h duration pngCount : Nat) (hrun : ∀ c, run c = []) :
    (fileExists fs in_gif = true → pyEndsWith out_mp4 ".mp4" = true →
      fileExists fs out_mp4 = false →
      gif_to_mp4 true run w h fs in_gif out_mp4 = .error "Failed to create mp4 file.")
    ∧ ((pySort images).isEmpty = false →
      fileExists (fs ++ [out_gif]) (pyReplace out_gif ".gif" ".mp4") = false →
      make_gif true run fs images out_gif true false = .error "Failed to create mp4 file.")
    ∧ merge_gifs run fs in_gifs out_gif = .ok fs
    ∧ (in_gif.data.contains ' ' = false → fileExists fs in_gif = true →
      gif_to_png run fs in_gif out_dir pfx = .ok fs)
    ∧ (pyEndsWith in_gif ".gif" = true → in_gif.data.contains ' ' = false →
      fileExists fs in_gif = true →
      gif_fading run fs in_gif out_gif tmpDir duration pngCount = .ok fs) := by
  refine ⟨?_, ?_, ?_, ?_, ?_⟩
  · intro h1 h2 h3
    simp [gif_to_mp4, h1, h2, h3, hrun]
  · intro h1 h2
    simp [make_gif, h1, h2, hrun, fileExists_self_append]
  · simp [merge_gifs, hrun]
  · intro h1 h2
    have h1x : ' ' ∉ in_gif.data := by simpa using h1
    simp [gif_to_png, h1x, h2, hrun]
  · intro h1 h2 h3
    have h2x : ' ' ∉ in_gif.data := by simpa using h2
    simp [gif_fading, gif_to_png, h1, h2x, h3, hrun]

/-- Witness for the amended C3 with an encoder that creates nothing. -/
theorem C3_existence_checks_witness :
    gif_to_mp4 true (fun _ => []) 2 2 ["a.gif"] "a.gif" "b.mp4"
      = .error "Failed to create mp4 file."
    ∧ make_gif true (fun _ => []) ["a.gif"] ["x.jpg"] "o.gif" true false
      = .error "Failed to create mp4 file."
    ∧ merge_gifs (fun _ => []) ["a.gif"] ["a.gif", "b.gif"] "out.gif" = .ok ["a.gif"]
    ∧ gif_to_png (fun _ => []) ["a.gif"] "a.gif" "tmpdir" "" = .ok ["a.gif"]
    ∧ gif_fading (fun _ => []) ["a.gif"] "a.gif" "out.gif" "tmpdir" 1 3 = .ok ["a.gif"] := by
  obtain ⟨w1, w2, w3, w4, w5⟩ := C3_existence_checks (fun _ => []) ["a.gif"] "a.gif" "b.mp4"
    "o.gif" "tmpdir" "" "tmpdir" ["x.jpg"] ["a.gif", "b.gif"] 2 2 1 3 (fun _ => rfl)
  exact ⟨w1 (by decide) (by decide) (by decide), w2 (by decide) (by decide),
    w3, w4 (by decide) (by decide), w5 (by decide) (by decide) (by decide)⟩
